import Mathlib

set_option autoImplicit false

attribute [local semireducible] Rat.add Rat.mul Rat.sub Rat.inv Rat.ofScientific

/-!
Shallow embedding of `src/main.py` (invest-lord-bot).

The program fetches a spreadsheet ("portfolio" worksheet) as a list of raw
rows, normalizes the `qty` and `avg_price` columns (`sheet_to_dataframe`,
src/main.py:50-65), aggregates position values by account and by type
(`analyze_portfolio`, src/main.py:70-97), formats replies in three chat
handlers (`cmd_portfolio` 121-144, `cmd_analysis` 148-171, `cmd_rows`
175-190), and runs a periodic refresh loop (`periodic_task` 195-205).

Embedding conventions:
* machine floats are embedded as exact rationals (`ℚ`);
* a pandas DataFrame is a column-name list plus rows, a row being an
  association list from column name to `Cell`; a lookup of a column that a
  row does not bind yields `Cell.nan`, mirroring how `pd.DataFrame` of a
  list of dicts fills missing keys with NaN;
* fallible Python code (KeyError on a missing column, a non-numeric cell
  reaching float arithmetic) is embedded in `Option`: `none` marks an
  uncaught exception at that point;
* the external fetch (`connect_gsheet()` plus the worksheet read, both
  inside every handler's `try`) is passed in as an `Except String DF`
  value: `.error e` is any exception raised there, `.ok df` the normalized
  DataFrame handed to the rest of the handler body.
-/

/-- A spreadsheet / DataFrame cell: a numeric value, a text value, or the
missing marker (pandas NaN). -/
inductive Cell : Type
  | num (q : ℚ)
  | str (s : String)
  | nan
deriving DecidableEq

/-- A row: association list from column name to cell, as produced by
`worksheet.get_all_records()` (src/main.py:56). -/
abbrev Row : Type := List (String × Cell)

/-- First binding of column `c` in a row, if any. -/
def lookupCell : Row → String → Option Cell
  | [], _ => none
  | (c', v) :: t, c => if c' = c then some v else lookupCell t c

/-- Cell of column `c` with an explicit default (models `row.get(c, d)` on a
pandas Series / record dict). -/
def getCellD (r : Row) (c : String) (d : Cell) : Cell := (lookupCell r c).getD d

/-- Cell of column `c`; a column the row does not bind reads as NaN, as in a
DataFrame built from a list of dicts. -/
def getCell (r : Row) (c : String) : Cell := getCellD r c Cell.nan

/-- Write column `c` of a row: replace the first binding, or append one. -/
def setCell : Row → String → Cell → Row
  | [], c, v => [(c, v)]
  | (c', v') :: t, c, v => if c' = c then (c, v) :: t else (c', v') :: setCell t c v

/-- Keep the first occurrence of each element (order of first appearance);
used for the DataFrame column order and for the group keys. -/
def firstDedup {α : Type} [DecidableEq α] : List α → List α
  | [] => []
  | a :: t => a :: (firstDedup t).filter (fun x => x ≠ a)

/-- A DataFrame: the column list plus the rows. -/
structure DF : Type where
  cols : List String
  rows : List Row
deriving DecidableEq

/-- `pd.DataFrame(rows)` (src/main.py:57): columns are the union of the row
keys in order of first appearance. -/
def mkDF (rws : List Row) : DF :=
  { cols := firstDedup ((rws.map (fun r => r.map Prod.fst)).flatten), rows := rws }

/-- `df.empty`: some axis has length zero. -/
def DF.isEmpty (df : DF) : Bool := df.rows.isEmpty || df.cols.isEmpty

/-- Digit run to a natural number; `none` on any non-digit character. -/
def digitsToNatA (acc : Nat) : List Char → Option Nat
  | [] => some acc
  | c :: t => if c.isDigit then digitsToNatA (10 * acc + (c.toNat - 48)) t else none

/-- Unsigned decimal literal `digits[.digits]`; at least one digit. -/
def parseUnsigned (l : List Char) : Option ℚ :=
  let ip := l.takeWhile (fun c => c ≠ '.')
  match l.dropWhile (fun c => c ≠ '.') with
  | [] =>
    if ip.isEmpty then none
    else (digitsToNatA 0 ip).map (fun n => (n : ℚ))
  | _ :: fp =>
    if ip.isEmpty && fp.isEmpty then none
    else
      match digitsToNatA 0 ip, digitsToNatA 0 fp with
      | some a, some b => some ((a : ℚ) + (b : ℚ) / (10 : ℚ) ^ fp.length)
      | _, _ => none

/-- Numeric reading of a text cell, as `pd.to_numeric` accepts a plain
signed decimal literal; `none` (NaN) for anything else. Scientific notation
and surrounding whitespace are outside what the program's data exercises. -/
def parseNum (s : String) : Option ℚ :=
  match s.data with
  | [] => none
  | '-' :: t => (parseUnsigned t).map (fun q => -q)
  | '+' :: t => parseUnsigned t
  | l => parseUnsigned l

/-- `pd.to_numeric(cell, errors="coerce")`: numbers pass through, numeric
text is parsed, everything else (including NaN) becomes NaN (`none`). -/
def toNumeric (c : Cell) : Option ℚ :=
  match c with
  | .num q => some q
  | .str s => parseNum s
  | .nan => none

/-- One cell of `pd.to_numeric(df[col], errors="coerce").fillna(0)`
(src/main.py:64). -/
def normCell (c : Cell) : Cell := Cell.num ((toNumeric c).getD 0)

/-- `df[col] = pd.to_numeric(df[col], errors="coerce").fillna(0)` applied
when `col in df.columns` (src/main.py:62-64); otherwise the frame is left
unchanged. -/
def applyCol (df : DF) (c : String) : DF :=
  if c ∈ df.cols then
    { cols := df.cols, rows := df.rows.map (fun r => setCell r c (normCell (getCell r c))) }
  else df

/-- `sheet_to_dataframe` (src/main.py:50-65), from the point where the raw
records are in hand: build the DataFrame, return it as is when empty,
otherwise coerce the `qty` then the `avg_price` column. The worksheet
acquisition above it is part of the external fetch. -/
def sheet_to_dataframe (rws : List Row) : DF :=
  let df := mkDF rws
  if df.isEmpty then df
  else applyCol (applyCol df "qty") "avg_price"

/-- `fillna(0)` on a single cell. -/
def fillna0 (c : Cell) : Cell :=
  match c with
  | .nan => Cell.num 0
  | c => c

/-- One element of `df["qty"].fillna(0) * df["avg_price"].fillna(0)`
(src/main.py:77): NaN is filled with 0 first; a text cell reaching the
numeric product is an error (`none`). -/
def cellMulQ (a b : Cell) : Option ℚ :=
  match fillna0 a, fillna0 b with
  | .num x, .num y => some (x * y)
  | _, _ => none

/-- Element-wise evaluation of a whole column; `none` as soon as one
element fails. -/
def mapOpt {α β : Type} (f : α → Option β) : List α → Option (List β)
  | [] => some []
  | a :: t =>
    match f a, mapOpt f t with
    | some b, some bs => some (b :: bs)
    | _, _ => none

/-- Sum of the values of the rows whose key cell equals `k`. -/
def fiberSum (kv : List (Cell × ℚ)) (k : Cell) : ℚ :=
  ((kv.filter (fun p => p.1 = k)).map Prod.snd).sum

/-- `df.groupby(key)["value"].sum().to_dict()` (src/main.py:81-83) on
(key cell, value) pairs: NaN keys are dropped (pandas `dropna=True`), each
remaining key maps to the sum of its rows' values. The enumeration order of
the groups is not contractually significant (spec §4.2); the embedding
lists keys in order of first appearance. -/
def groupby (kv : List (Cell × ℚ)) : List (Cell × ℚ) :=
  let kv' := kv.filter (fun p => p.1 ≠ Cell.nan)
  (firstDedup (kv'.map Prod.fst)).map (fun k => (k, fiberSum kv' k))

/-- `{k: (float(v)/total*100 if total else 0) for k, v in m.items()}`
(src/main.py:86-87). -/
def pctMap (total : ℚ) (m : List (Cell × ℚ)) : List (Cell × ℚ) :=
  m.map (fun p => (p.1, if total = 0 then 0 else p.2 / total * 100))

/-- The dict returned by `analyze_portfolio`. The two percentage fields are
`Option`s because the empty-input branch (src/main.py:74) returns a dict
without the `by_account_pct` / `by_type_pct` keys: `none` models an absent
key. -/
structure AnalysisResult : Type where
  total : ℚ
  by_account : List (Cell × ℚ)
  by_type : List (Cell × ℚ)
  by_account_pct : Option (List (Cell × ℚ))
  by_type_pct : Option (List (Cell × ℚ))
  rows : List Row
deriving DecidableEq

/-- `df[c] = vals` on a whole column: the column list gains `c` when new,
and every row's `c` binding is written. -/
def setColumn (df : DF) (c : String) (vals : List ℚ) : DF :=
  { cols := if c ∈ df.cols then df.cols else df.cols ++ [c],
    rows := List.zipWith (fun r v => setCell r c (Cell.num v)) df.rows vals }

/-- The dict of the empty-input branch,
`{"total": 0, "by_account": {}, "by_type": {}, "rows": []}` (src/main.py:74):
no percentage keys at all. -/
def emptyRes : AnalysisResult :=
  { total := 0, by_account := [], by_type := [], by_account_pct := none,
    by_type_pct := none, rows := [] }

/-- `analyze_portfolio` (src/main.py:70-97). Returns `none` where the
Python raises an uncaught exception: a KeyError when `qty`/`avg_price`
(line 77) or `account`/`type` (lines 81-83) is not a column, or a text cell
reaching the numeric product. The second component of a successful result
is the state of the caller's DataFrame after the call — line 77 writes the
`value` column into it in place. -/
def analyze_portfolio (df : DF) : Option (AnalysisResult × DF) :=
  if df.isEmpty then
    some (emptyRes, df)
  else if "qty" ∈ df.cols ∧ "avg_price" ∈ df.cols then
    match mapOpt (fun r => cellMulQ (getCell r "qty") (getCell r "avg_price")) df.rows with
    | none => none
    | some vals =>
      let df1 := setColumn df "value" vals
      if "account" ∈ df1.cols ∧ "type" ∈ df1.cols then
        let total := vals.sum
        let by_account := groupby ((df1.rows.map (fun r => getCell r "account")).zip vals)
        let by_type := groupby ((df1.rows.map (fun r => getCell r "type")).zip vals)
        some ({ total := total, by_account := by_account, by_type := by_type,
                by_account_pct := some (pctMap total by_account),
                by_type_pct := some (pctMap total by_type),
                rows := df1.rows }, df1)
      else none
  else none

/-- Numeric content of a cell after the normalizer has run: `num q` reads
as `q`, anything else as `0` (only reached through `fillna`-style paths). -/
def cellNum (c : Cell) : ℚ :=
  match c with
  | .num q => q
  | _ => 0

/-- Position value `qty * avg_price` of a normalized row. -/
def valN (r : Row) : ℚ := cellNum (getCell r "qty") * cellNum (getCell r "avg_price")

/-- The `value` column of a normalized DataFrame. -/
def dfVals (df : DF) : List ℚ := df.rows.map valN

/-- The DataFrame after `analyze_portfolio` wrote its `value` column. -/
def dfVal (df : DF) : DF := setColumn df "value" (dfVals df)

/-- The analysis dict `analyze_portfolio` produces on a well-formed
non-empty DataFrame, written as a function of the input frame. -/
def resOf (df : DF) : AnalysisResult :=
  let df1 := dfVal df
  let vals := dfVals df
  let total := vals.sum
  let by_account := groupby ((df1.rows.map (fun r => getCell r "account")).zip vals)
  let by_type := groupby ((df1.rows.map (fun r => getCell r "type")).zip vals)
  { total := total, by_account := by_account, by_type := by_type,
    by_account_pct := some (pctMap total by_account),
    by_type_pct := some (pctMap total by_type),
    rows := df1.rows }

/-- `true` exactly on numeric cells. -/
def isNumCell (c : Cell) : Bool :=
  match c with
  | .num _ => true
  | _ => false

/-- A DataFrame shaped like the Record Normalizer's output with the four
computed-on columns present: `qty` and `avg_price` hold numeric cells and
`account` / `type` cells are not NaN (spec §3: a normalized PositionRecord
always carries defined values in these fields). -/
def NormalizedDF (df : DF) : Prop :=
  "qty" ∈ df.cols ∧ "avg_price" ∈ df.cols ∧ "account" ∈ df.cols ∧ "type" ∈ df.cols ∧
    ∀ r ∈ df.rows, isNumCell (getCell r "qty") = true ∧
      isNumCell (getCell r "avg_price") = true ∧
      getCell r "account" ≠ Cell.nan ∧ getCell r "type" ≠ Cell.nan

instance (df : DF) : Decidable (NormalizedDF df) := by
  unfold NormalizedDF
  infer_instance

/-- `float(cell)`: a number reads as itself, numeric text parses, anything
else fails. (A true NaN cell would propagate silently through Python float
arithmetic; it is unreachable after normalization and collapsed to the
failure marker here.) -/
def pyFloat (c : Cell) : Option ℚ :=
  match c with
  | .num q => some q
  | .str s => parseNum s
  | .nan => none

/-- `str(cell)` as interpolated into the replies. Integral numeric cells
(int64 columns) print without a decimal point; non-integral numeric display
is approximated (the claims only exercise integral and text cells). -/
def cellStr (c : Cell) : String :=
  match c with
  | .num q => if q.den = 1 then toString q.num else toString q.num ++ "/" ++ toString q.den
  | .str s => s
  | .nan => "nan"

/-- Round half to even (Python float formatting rounding). -/
def rndHalfEven (x : ℚ) : ℤ :=
  let f := x.floor
  if x - f < 1 / 2 then f
  else if (1 : ℚ) / 2 < x - f then f + 1
  else if f % 2 = 0 then f else f + 1

/-- Insert a `,` after every third digit, on a least-significant-first
digit list. -/
def groupDigits : List Char → List Char
  | a :: b :: c :: d :: rest => a :: b :: c :: ',' :: groupDigits (d :: rest)
  | l => l

/-- A natural number with thousands separators. -/
def commaNat (n : Nat) : String :=
  String.mk ((groupDigits (toString n).data.reverse).reverse)

/-- Left-pad with zeros to `d` characters. -/
def padZeros (s : String) (d : Nat) : String :=
  String.mk (List.replicate (d - s.length) '0') ++ s

/-- Python fixed-point formatting: `d` decimal places, optional thousands
separator in the integer part. -/
def formatFixed (d : Nat) (sep : Bool) (x : ℚ) : String :=
  let scaled := rndHalfEven (x * (10 : ℚ) ^ d)
  let n := scaled.natAbs
  let ip := n / 10 ^ d
  let fp := n % 10 ^ d
  let ipStr := if sep then commaNat ip else toString ip
  let s := if scaled < 0 then "-" else ""
  if d = 0 then s ++ ipStr else s ++ ipStr ++ "." ++ padZeros (toString fp) d

/-- Python `"{:,.2f}"`. -/
def fmt2c (x : ℚ) : String := formatFixed 2 true x

/-- Python `"{:.2f}"` — two decimals, no thousands separator. -/
def fmt2 (x : ℚ) : String := formatFixed 2 false x

/-- Python `"{:.1f}"`. -/
def fmt1 (x : ℚ) : String := formatFixed 1 false x

/-- The handlers' shared `except` reply,
`"Ошибка доступа к Google Sheets: " + str(e)` (src/main.py:127,153,180). -/
def gsheetErrText (e : String) : String := "Ошибка доступа к Google Sheets: " ++ e

/-- One iteration of the `/портфель` listing loop (src/main.py:136-142):
the formatted line and the row's value added into the running total. -/
def listingData (r : Row) : Option (String × ℚ) :=
  match pyFloat (getCellD r "qty" (Cell.num 0)), pyFloat (getCellD r "avg_price" (Cell.num 0)) with
  | some q, some a =>
    some (cellStr (getCellD r "symbol" (Cell.str "")) ++ " — qty: " ++
            cellStr (getCellD r "qty" (Cell.num 0)) ++ ", price: " ++
            cellStr (getCellD r "avg_price" (Cell.num 0)) ++ " ₽, value: " ++
            fmt2c (q * a) ++ " ₽",
          q * a)
  | _, _ => none

/-- `cmd_portfolio` (src/main.py:121-144). The result is the list of
messages the handler answers with; `none` is an uncaught exception escaping
the handler (no reply at all). -/
def cmd_portfolio (fetch : Except String DF) : Option (List String) :=
  match fetch with
  | .error e => some [gsheetErrText e]
  | .ok df =>
    if df.isEmpty then some ["Портфель пуст или неверная структура листа."]
    else
      match mapOpt listingData df.rows with
      | none => none
      | some ld =>
        some [String.intercalate "\n"
          ("📊 *Твой портфель*:\n" :: ld.map Prod.fst ++
            ["\n💵 *Итого:* " ++ fmt2 ((ld.map Prod.snd).sum) ++ " ₽"])]

/-- `dict.get(k, 0)` on a value map. -/
def qLookupD (m : List (Cell × ℚ)) (k : Cell) : ℚ :=
  match m with
  | [] => 0
  | (k', v) :: t => if k' = k then v else qLookupD t k

/-- One group line of `/анализ` (src/main.py:163-169):
`f"{k}: {val:,.2f} ₽ ({pct:.1f}%)"`. -/
def groupLine (pct : List (Cell × ℚ)) (p : Cell × ℚ) : String :=
  cellStr p.1 ++ ": " ++ fmt2c p.2 ++ " ₽ (" ++ fmt1 (qLookupD pct p.1) ++ "%)"

/-- `cmd_analysis` (src/main.py:148-171). Only the fetch is inside the
`try`; `analyze_portfolio` runs unguarded, so its failure (`none`) escapes
as `none`: the handler sends nothing at all. -/
def cmd_analysis (fetch : Except String DF) : Option (List String) :=
  match fetch with
  | .error e => some [gsheetErrText e]
  | .ok df =>
    match analyze_portfolio df with
    | none => none
    | some (a, _) =>
      if a.total = 0 then some ["Портфель пуст или нулевой."]
      else
        match a.by_account_pct, a.by_type_pct with
        | some accPct, some tyPct =>
          some [String.intercalate "\n"
            (("📈 *Анализ портфеля* — Итого: " ++ fmt2c a.total ++ " ₽\n")
              :: "— По счетам:"
              :: (a.by_account.map (groupLine accPct) ++
                  "\n— По типам:" :: a.by_type.map (groupLine tyPct)))]
        | _, _ => none

/-- One line of the `/строка` preview (src/main.py:188-189), for the
1-based position `iv.1 + 1`. -/
def previewLine (iv : Nat × Row) : Option String :=
  match pyFloat (getCellD iv.2 "qty" (Cell.num 0)), pyFloat (getCellD iv.2 "avg_price" (Cell.num 0)) with
  | some q, some a =>
    some (toString (iv.1 + 1) ++ ". " ++ cellStr (getCellD iv.2 "symbol" (Cell.str "")) ++
            " — " ++ cellStr (getCellD iv.2 "qty" (Cell.num 0)) ++ " × " ++
            cellStr (getCellD iv.2 "avg_price" (Cell.num 0)) ++ " = " ++
            fmt2c (q * a) ++ " ₽\n")
  | _, _ => none

/-- `cmd_rows` (src/main.py:175-190): first ten records, 1-based. -/
def cmd_rows (fetch : Except String DF) : Option (List String) :=
  match fetch with
  | .error e => some [gsheetErrText e]
  | .ok df =>
    if df.isEmpty then some ["Пусто"]
    else
      match mapOpt previewLine (df.rows.take 10).enum with
      | none => none
      | some ls => some ["Первые строки:\n" ++ String.join ls]

/-- What one refresh cycle logs: the grand total on success, the failure
on any exception inside the cycle's `try`. -/
inductive LogEntry : Type
  | info (total : ℚ)
  | err (msg : String)
deriving DecidableEq

/-- The body of `periodic_task`'s `try` (src/main.py:197-202): fetch, then
`analyze_portfolio`, then `analysis.get("total")`. Any exception — from the
fetch or from the analysis — is the `error` case. -/
def cycleAttempt (fetch : Except String DF) : Except String ℚ :=
  match fetch with
  | .error e => Except.error e
  | .ok df =>
    match analyze_portfolio df with
    | none => Except.error "KeyError"
    | some (a, _) => Except.ok a.total

/-- One full cycle of `periodic_task` (src/main.py:196-205): the log entry
it records and the seconds it then sleeps (`60 * 30`, line 205) before the
next cycle — reached on success and on failure alike. -/
def periodic_cycle (fetch : Except String DF) : LogEntry × Nat :=
  match cycleAttempt fetch with
  | .ok t => (LogEntry.info t, 60 * 30)
  | .error e => (LogEntry.err e, 60 * 30)

/-- The refresh loop as a function of the cycle index: cycle `n` runs on
the fetch outcome of cycle `n`. Being total in `n`, every cycle — however
the previous ones ended — is reached. -/
def periodic_task (fetches : Nat → Except String DF) (n : Nat) : LogEntry × Nat :=
  periodic_cycle (fetches n)

/-- The listing line of a normalized row, as a total function: raw `qty`
and `avg_price` cells interpolated unformatted, the computed value through
`"{:,.2f}"`. -/
def lineOfN (r : Row) : String :=
  cellStr (getCellD r "symbol" (Cell.str "")) ++ " — qty: " ++ cellStr (getCell r "qty") ++
    ", price: " ++ cellStr (getCell r "avg_price") ++ " ₽, value: " ++ fmt2c (valN r) ++ " ₽"

/-- Concrete normalized row: account A, stock X, 10 × 3 = 30. -/
def rowA : Row :=
  [("account", Cell.str "A"), ("type", Cell.str "stock"), ("symbol", Cell.str "X"),
   ("qty", Cell.num 10), ("avg_price", Cell.num 3)]

/-- Concrete normalized row: account B, bond Y, 10 × 7 = 70. -/
def rowB : Row :=
  [("account", Cell.str "B"), ("type", Cell.str "bond"), ("symbol", Cell.str "Y"),
   ("qty", Cell.num 10), ("avg_price", Cell.num 7)]

/-- Two-account portfolio with values 30 and 70. -/
def dfAB : DF := DF.mk ["account", "type", "symbol", "qty", "avg_price"] [rowA, rowB]

/-- Concrete normalized row with zero value (qty 0). -/
def rowZero : Row :=
  [("account", Cell.str "A"), ("type", Cell.str "bond"), ("symbol", Cell.str "Z"),
   ("qty", Cell.num 0), ("avg_price", Cell.num 5)]

/-- One-row portfolio whose total value is 0. -/
def dfZero : DF := DF.mk ["account", "type", "symbol", "qty", "avg_price"] [rowZero]

/-- One-row portfolio with value 1000 × 5 = 5000 (large enough for a
thousands separator to matter). -/
def dfBig : DF :=
  DF.mk ["account", "type", "symbol", "qty", "avg_price"]
    [[("account", Cell.str "A"), ("type", Cell.str "stock"), ("symbol", Cell.str "X"),
      ("qty", Cell.num 1000), ("avg_price", Cell.num 5)]]

/-- Raw fetch result whose sheet has no `qty` column at all. -/
def rawMissingQty : List Row :=
  [[("account", Cell.str "A"), ("type", Cell.str "stock"), ("symbol", Cell.str "X"),
    ("avg_price", Cell.num 5)]]

/-- Raw fetch result whose `qty` cell is the non-numeric text `"abc"`. -/
def rawBadQty : List Row :=
  [[("account", Cell.str "A"), ("type", Cell.str "stock"), ("symbol", Cell.str "X"),
    ("qty", Cell.str "abc"), ("avg_price", Cell.num 5)]]

/-- The DataFrame of an empty fetch (`get_all_records()` returned `[]`). -/
def dfNone : DF := mkDF []

/-! ### Association-list and zip lemmas -/

theorem lookupCell_setCell_self (r : Row) (c : String) (v : Cell) :
    lookupCell (setCell r c v) c = some v := by
  induction r with
  | nil => simp [setCell, lookupCell]
  | cons p t ih =>
    obtain ⟨c', v'⟩ := p
    by_cases h : c' = c
    · simp [setCell, h, lookupCell]
    · simp [setCell, h, lookupCell, ih]

theorem getCell_setCell_self (r : Row) (c : String) (v : Cell) :
    getCell (setCell r c v) c = v := by
  simp [getCell, getCellD, lookupCell_setCell_self]

theorem lookupCell_setCell_ne (r : Row) (c c' : String) (v : Cell) (h : c' ≠ c) :
    lookupCell (setCell r c v) c' = lookupCell r c' := by
  have hcc : ¬ c = c' := fun hh => h hh.symm
  induction r with
  | nil => simp [setCell, lookupCell, hcc]
  | cons p t ih =>
    obtain ⟨c'', v''⟩ := p
    by_cases hc : c'' = c
    · subst hc
      simp [setCell, lookupCell, hcc]
    · simp [setCell, hc, lookupCell, ih]

theorem getCell_setCell_ne (r : Row) (c c' : String) (v : Cell) (h : c' ≠ c) :
    getCell (setCell r c v) c' = getCell r c' := by
  simp [getCell, getCellD, lookupCell_setCell_ne r c c' v h]

theorem getCellD_eq_of_num (r : Row) (c : String) (d : Cell) (q : ℚ)
    (h : getCell r c = Cell.num q) : getCellD r c d = Cell.num q := by
  unfold getCell getCellD at *
  cases hl : lookupCell r c with
  | none => rw [hl] at h; simp at h
  | some x => rw [hl] at h; simpa using h

theorem zip_map_self {α β : Type} (g : α → β) :
    ∀ (l : List α) (p : α × β), p ∈ l.zip (l.map g) → p.2 = g p.1 := by
  intro l
  induction l with
  | nil => simp
  | cons a t ih =>
    intro p hp
    rw [List.map_cons, List.zip_cons_cons, List.mem_cons] at hp
    rcases hp with h | h
    · rw [h]
    · exact ih p h

theorem map_snd_zip_eq {α β : Type} :
    ∀ (l1 : List α) (l2 : List β), l1.length = l2.length →
      (l1.zip l2).map Prod.snd = l2 := by
  intro l1
  induction l1 with
  | nil =>
    intro l2 h
    cases l2 with
    | nil => rfl
    | cons b t => simp at h
  | cons a t ih =>
    intro l2 h
    cases l2 with
    | nil => simp at h
    | cons b s =>
      rw [List.zip_cons_cons, List.map_cons, ih s (by simpa using h)]

theorem zip_zipWith_mem {α β γ : Type} (f : α → β → γ) :
    ∀ (l : List α) (vs : List β) (p : α × γ),
      p ∈ l.zip (List.zipWith f l vs) → ∃ v, p.2 = f p.1 v := by
  intro l
  induction l with
  | nil => simp
  | cons a t ih =>
    intro vs p hp
    cases vs with
    | nil => simp at hp
    | cons v vt =>
      rw [List.zipWith_cons_cons, List.zip_cons_cons, List.mem_cons] at hp
      rcases hp with h | h
      · exact ⟨v, by rw [h]⟩
      · exact ih vt p h

theorem mapOpt_eq_map {α β : Type} (f : α → Option β) (g : α → β) :
    ∀ (l : List α), (∀ a ∈ l, f a = some (g a)) → mapOpt f l = some (l.map g) := by
  intro l
  induction l with
  | nil => intro _; rfl
  | cons a t ih =>
    intro h
    have h1 : f a = some (g a) := h a (by simp)
    have h2 : mapOpt f t = some (t.map g) := ih (fun x hx => h x (by simp [hx]))
    simp [mapOpt, h1, h2]

/-! ### Grouping conservation -/

theorem fiberSum_cons_self (a : Cell × ℚ) (t : List (Cell × ℚ)) (k : Cell) (h : a.1 = k) :
    fiberSum (a :: t) k = a.2 + fiberSum t k := by
  simp [fiberSum, List.filter_cons, h]

theorem fiberSum_cons_ne (a : Cell × ℚ) (t : List (Cell × ℚ)) (k : Cell) (h : a.1 ≠ k) :
    fiberSum (a :: t) k = fiberSum t k := by
  simp [fiberSum, List.filter_cons, h]

theorem fiber_split (k : Cell) (t : List (Cell × ℚ)) :
    fiberSum t k + ((t.filter (fun p => p.1 ≠ k)).map Prod.snd).sum = (t.map Prod.snd).sum := by
  induction t with
  | nil => simp [fiberSum]
  | cons a s ih =>
    by_cases h : a.1 = k
    · rw [fiberSum_cons_self a s k h]
      simp only [List.filter_cons]
      rw [if_neg (by simp [h])]
      rw [List.map_cons, List.sum_cons]
      linarith [ih]
    · rw [fiberSum_cons_ne a s k h]
      simp only [List.filter_cons]
      rw [if_pos (by simp [h])]
      simp only [List.map_cons, List.sum_cons]
      linarith [ih]

theorem fiberSum_filter_ne (k k' : Cell) (h : k' ≠ k) (l : List (Cell × ℚ)) :
    fiberSum (l.filter (fun p => p.1 ≠ k)) k' = fiberSum l k' := by
  induction l with
  | nil => rfl
  | cons a t ih =>
    simp only [List.filter_cons]
    by_cases ha : a.1 = k
    · have ha' : a.1 ≠ k' := by rw [ha]; exact fun hh => h hh.symm
      rw [if_neg (by simp [ha])]
      rw [fiberSum_cons_ne a t k' ha']
      exact ih
    · rw [if_pos (by simp [ha])]
      by_cases ha' : a.1 = k'
      · rw [fiberSum_cons_self a _ k' ha', fiberSum_cons_self a t k' ha', ih]
      · rw [fiberSum_cons_ne a _ k' ha', fiberSum_cons_ne a t k' ha', ih]

theorem filter_map_fst (k : Cell) :
    ∀ (t : List (Cell × ℚ)),
      (t.map Prod.fst).filter (fun x => x ≠ k) = (t.filter (fun p => p.1 ≠ k)).map Prod.fst := by
  intro t
  induction t with
  | nil => rfl
  | cons a s ih =>
    rw [List.map_cons]
    simp only [List.filter_cons]
    by_cases h : a.1 = k
    · rw [if_neg (by simp [h]), if_neg (by simp [h]), ih]
    · rw [if_pos (by simp [h]), if_pos (by simp [h]), List.map_cons, ih]

theorem firstDedup_cons_filter {α : Type} [DecidableEq α] (a : α) (t : List α) :
    firstDedup (a :: t) = a :: (firstDedup t).filter (fun x => x ≠ a) := rfl

theorem filter_firstDedup {α : Type} [DecidableEq α] (p : α → Bool) :
    ∀ l : List α, firstDedup (l.filter p) = (firstDedup l).filter p := by
  intro l
  induction l with
  | nil => rfl
  | cons a t ih =>
    by_cases hp : p a
    · rw [List.filter_cons_of_pos hp, firstDedup_cons_filter, ih, firstDedup_cons_filter,
        List.filter_cons_of_pos hp]
      congr 1
      rw [List.filter_filter, List.filter_filter]
      apply List.filter_congr
      intro x _
      rw [Bool.and_comm]
    · rw [List.filter_cons_of_neg hp, ih, firstDedup_cons_filter,
        List.filter_cons_of_neg hp, List.filter_filter]
      apply List.filter_congr
      intro x _
      by_cases hxa : x = a
      · subst hxa
        simp [hp]
      · simp [hxa]

theorem firstDedup_cons {α : Type} [DecidableEq α] (a : α) (t : List α) :
    firstDedup (a :: t) = a :: firstDedup (t.filter (fun x => x ≠ a)) := by
  rw [firstDedup_cons_filter, filter_firstDedup]

theorem firstDedup_subset {α : Type} [DecidableEq α] :
    ∀ (n : Nat) (l : List α), l.length ≤ n → ∀ x ∈ firstDedup l, x ∈ l := by
  intro n
  induction n with
  | zero =>
    intro l hl
    have : l = [] := List.eq_nil_of_length_eq_zero (Nat.le_zero.mp hl)
    subst this
    simp [firstDedup]
  | succ n ih =>
    intro l hl x hx
    match l with
    | [] => simp [firstDedup] at hx
    | a :: t =>
      rw [firstDedup_cons, List.mem_cons] at hx
      rcases hx with h | h
      · simp [h]
      · have hlen : (t.filter (fun x => x ≠ a)).length ≤ n :=
          le_trans (List.length_filter_le _ _) (by simpa using Nat.le_of_succ_le_succ hl)
        have := ih (t.filter (fun x => x ≠ a)) hlen x h
        exact List.mem_cons_of_mem a (List.mem_of_mem_filter this)

theorem groupSum_eq :
    ∀ (n : Nat) (l : List (Cell × ℚ)), l.length ≤ n →
      ((firstDedup (l.map Prod.fst)).map (fun k => fiberSum l k)).sum = (l.map Prod.snd).sum := by
  intro n
  induction n with
  | zero =>
    intro l hl
    have : l = [] := List.eq_nil_of_length_eq_zero (Nat.le_zero.mp hl)
    subst this
    simp [firstDedup]
  | succ n ih =>
    intro l hl
    match l with
    | [] => simp [firstDedup]
    | (k, v) :: t =>
      rw [List.map_cons, firstDedup_cons, List.map_cons, List.sum_cons]
      have hset : (t.map Prod.fst).filter (fun x => x ≠ k) =
          (t.filter (fun p => p.1 ≠ k)).map Prod.fst := filter_map_fst k t
      rw [hset]
      have hkeys : ∀ k' ∈ firstDedup ((t.filter (fun p => p.1 ≠ k)).map Prod.fst),
          fiberSum ((k, v) :: t) k' = fiberSum (t.filter (fun p => p.1 ≠ k)) k' := by
        intro k' hk'
        have hmem : k' ∈ (t.filter (fun p => p.1 ≠ k)).map Prod.fst :=
          firstDedup_subset _ _ le_rfl k' hk'
        have hne : k' ≠ k := by
          obtain ⟨p, hp, hpk⟩ := List.mem_map.mp hmem
          have := List.of_mem_filter hp
          simp only [decide_eq_true_eq] at this
          rw [← hpk]
          exact this
        rw [fiberSum_cons_ne (k, v) t k' (fun hh => hne (hh.symm ▸ rfl)),
          fiberSum_filter_ne k k' hne t]
      rw [List.map_congr_left hkeys]
      have hlen : (t.filter (fun p => p.1 ≠ k)).length ≤ n :=
        le_trans (List.length_filter_le _ _) (by simpa using Nat.le_of_succ_le_succ hl)
      rw [ih _ hlen]
      rw [fiberSum_cons_self (k, v) t k rfl]
      rw [List.map_cons, List.sum_cons, add_assoc, fiber_split k t]

theorem groupby_sum (kv : List (Cell × ℚ)) (h : ∀ p ∈ kv, p.1 ≠ Cell.nan) :
    ((groupby kv).map Prod.snd).sum = (kv.map Prod.snd).sum := by
  unfold groupby
  have hf : kv.filter (fun p => p.1 ≠ Cell.nan) = kv := by
    rw [List.filter_eq_self]
    intro a ha
    simpa using h a ha
  rw [hf, List.map_map]
  have hc : (Prod.snd ∘ fun k => (k, fiberSum kv k)) = fun k => fiberSum kv k := rfl
  rw [hc]
  exact groupSum_eq kv.length kv le_rfl

theorem pctMap_zero_entries (total : ℚ) (m : List (Cell × ℚ)) (ht : total = 0) :
    ∀ p ∈ pctMap total m, p.2 = 0 := by
  intro p hp
  unfold pctMap at hp
  obtain ⟨q, _, hq⟩ := List.mem_map.mp hp
  rw [← hq]
  simp [ht]

theorem pctMap_sum (total : ℚ) (m : List (Cell × ℚ)) (ht : total ≠ 0)
    (hm : (m.map Prod.snd).sum = total) : ((pctMap total m).map Prod.snd).sum = 100 := by
  unfold pctMap
  rw [List.map_map]
  have hc : (Prod.snd ∘ fun p : Cell × ℚ => (p.1, if total = 0 then 0 else p.2 / total * 100)) =
      fun p : Cell × ℚ => p.2 * (100 / total) := by
    funext p
    simp only [Function.comp]
    rw [if_neg ht]
    ring
  rw [hc, List.sum_map_mul_right, hm]
  field_simp

/-! ### Column update and normalizer lemmas -/

theorem mem_setColumn_cols (df : DF) (c c' : String) (vals : List ℚ) (h : c ∈ df.cols) :
    c ∈ (setColumn df c' vals).cols := by
  unfold setColumn
  by_cases hv : c' ∈ df.cols <;> simp [hv, h]

theorem map_zipWith_setCell (cv c : String) (h : c ≠ cv) :
    ∀ (l : List Row) (vs : List ℚ), l.length = vs.length →
      (List.zipWith (fun r v => setCell r cv (Cell.num v)) l vs).map (fun r => getCell r c) =
        l.map (fun r => getCell r c) := by
  intro l
  induction l with
  | nil => intro vs _; simp
  | cons r t ih =>
    intro vs hlen
    cases vs with
    | nil => simp at hlen
    | cons v vt =>
      rw [List.zipWith_cons_cons, List.map_cons, List.map_cons,
        getCell_setCell_ne r cv c (Cell.num v) h, ih vt (by simpa using hlen)]

theorem applyCol_cols (df : DF) (c : String) : (applyCol df c).cols = df.cols := by
  unfold applyCol
  split <;> rfl

theorem applyCol_rows_of_mem (df : DF) (c : String) (h : c ∈ df.cols) :
    (applyCol df c).rows = df.rows.map (fun r => setCell r c (normCell (getCell r c))) := by
  unfold applyCol
  rw [if_pos h]

theorem applyCol_of_not_mem (df : DF) (c : String) (h : c ∉ df.cols) :
    applyCol df c = df := by
  unfold applyCol
  rw [if_neg h]

theorem applyCol_rows_length (df : DF) (c : String) :
    (applyCol df c).rows.length = df.rows.length := by
  unfold applyCol
  split <;> simp

theorem isEmpty_false_of (df : DF) (hr : df.rows ≠ []) (hc : df.cols ≠ []) :
    df.isEmpty = false := by
  cases h1 : df.rows with
  | nil => exact absurd h1 hr
  | cons a t =>
    cases h2 : df.cols with
    | nil => exact absurd h2 hc
    | cons b s => simp [DF.isEmpty, h1, h2]

theorem rows_ne_nil_of_isEmpty_false (df : DF) (h : df.isEmpty = false) : df.rows ≠ [] := by
  intro hr
  rw [DF.isEmpty, hr] at h
  simp at h

theorem cols_ne_nil_of_isEmpty_false (df : DF) (h : df.isEmpty = false) : df.cols ≠ [] := by
  intro hc
  rw [DF.isEmpty, hc] at h
  simp at h

/-! ### Characterization of `analyze_portfolio` on normalized frames -/

theorem analyze_spec (df : DF) (h : NormalizedDF df) (hrows : df.rows ≠ []) :
    analyze_portfolio df = some (resOf df, dfVal df) := by
  obtain ⟨hq, ha, hacc, hty, hcells⟩ := h
  have hmap : mapOpt (fun r => cellMulQ (getCell r "qty") (getCell r "avg_price")) df.rows
      = some (df.rows.map valN) := by
    apply mapOpt_eq_map
    intro r hr
    obtain ⟨h1, h2, _, _⟩ := hcells r hr
    cases hcq : getCell r "qty" with
    | num q =>
      cases hca : getCell r "avg_price" with
      | num a => simp [cellMulQ, fillna0, valN, hcq, hca, cellNum]
      | str s => rw [hca] at h2; simp [isNumCell] at h2
      | nan => rw [hca] at h2; simp [isNumCell] at h2
    | str s => rw [hcq] at h1; simp [isNumCell] at h1
    | nan => rw [hcq] at h1; simp [isNumCell] at h1
  have hemp : df.isEmpty = false := isEmpty_false_of df hrows (List.ne_nil_of_mem hq)
  unfold analyze_portfolio
  rw [hemp]
  simp only [Bool.false_eq_true, if_false]
  rw [if_pos ⟨hq, ha⟩, hmap]
  split
  next heq => simp at heq
  next vals heq =>
    injection heq with hv
    subst hv
    rw [if_pos ⟨mem_setColumn_cols df "account" "value" (df.rows.map valN) hacc,
      mem_setColumn_cols df "type" "value" (df.rows.map valN) hty⟩]
    rfl

theorem resOf_sums (df : DF) (h : NormalizedDF df) :
    ((resOf df).by_account.map Prod.snd).sum = (resOf df).total ∧
      ((resOf df).by_type.map Prod.snd).sum = (resOf df).total := by
  obtain ⟨hq, ha, hacc, hty, hcells⟩ := h
  have hlen : df.rows.length = (dfVals df).length := by simp [dfVals]
  have hsum : ∀ (c : String), c ≠ "value" → (∀ r ∈ df.rows, getCell r c ≠ Cell.nan) →
      ((groupby (((dfVal df).rows.map (fun r => getCell r c)).zip (dfVals df))).map
          Prod.snd).sum = (dfVals df).sum := by
    intro c hc hcn
    have hkeys : (dfVal df).rows.map (fun r => getCell r c) =
        df.rows.map (fun r => getCell r c) :=
      map_zipWith_setCell "value" c hc df.rows (dfVals df) hlen
    rw [hkeys]
    have hlen2 : (df.rows.map (fun r => getCell r c)).length = (dfVals df).length := by
      simpa using hlen
    rw [groupby_sum _ ?nonan]
    · rw [map_snd_zip_eq _ _ hlen2]
    case nonan =>
      intro p hp
      obtain ⟨x, y⟩ := p
      have hx := (List.of_mem_zip hp).1
      obtain ⟨r, hr, hrx⟩ := List.mem_map.mp hx
      rw [← hrx]
      exact hcn r hr
  constructor
  · exact hsum "account" (by decide) (fun r hr => (hcells r hr).2.2.1)
  · exact hsum "type" (by decide) (fun r hr => (hcells r hr).2.2.2)

/-! ### Claims -/

/-- C2 — Sum conservation: on every non-empty normalized record set the
aggregation succeeds, and `total_value` equals the sum of the by-account
map's values and the sum of the by-type map's values: grouping neither
loses nor double-counts value. -/
theorem C2_sum_conservation (df : DF) (h : NormalizedDF df) (hrows : df.rows ≠ []) :
    analyze_portfolio df = some (resOf df, dfVal df) ∧
      ((resOf df).by_account.map Prod.snd).sum = (resOf df).total ∧
      ((resOf df).by_type.map Prod.snd).sum = (resOf df).total :=
  ⟨analyze_spec df h hrows, (resOf_sums df h).1, (resOf_sums df h).2⟩

/-- C2 witness: the two-account portfolio `dfAB` (values 30 and 70). -/
theorem C2_witness :
    NormalizedDF dfAB ∧ dfAB.rows ≠ [] ∧
      (analyze_portfolio dfAB = some (resOf dfAB, dfVal dfAB) ∧
        ((resOf dfAB).by_account.map Prod.snd).sum = (resOf dfAB).total ∧
        ((resOf dfAB).by_type.map Prod.snd).sum = (resOf dfAB).total) :=
  ⟨by decide, by decide, C2_sum_conservation dfAB (by decide) (by decide)⟩

/-- C3 — Zero-total safety: on the empty frame and on every normalized
record set, aggregation succeeds (no division error), and whenever the
total is `0` every entry of each percentage map that is present is `0`. -/
theorem C3_zero_total_safety (df : DF) (h : df.isEmpty = true ∨ NormalizedDF df) :
    ∃ res df2, analyze_portfolio df = some (res, df2) ∧
      (res.total = 0 →
        (∀ m, res.by_account_pct = some m → ∀ p ∈ m, p.2 = 0) ∧
        (∀ m, res.by_type_pct = some m → ∀ p ∈ m, p.2 = 0)) := by
  by_cases he : df.isEmpty = true
  · refine ⟨emptyRes, df, ?_, ?_⟩
    · unfold analyze_portfolio
      rw [he, if_pos rfl]
    · intro _
      constructor
      · intro m hm; exact absurd hm (by simp [emptyRes])
      · intro m hm; exact absurd hm (by simp [emptyRes])
  · have hn : NormalizedDF df := h.resolve_left he
    have hrows : df.rows ≠ [] := by
      intro hr
      exact he (by simp [DF.isEmpty, hr])
    refine ⟨resOf df, dfVal df, analyze_spec df hn hrows, ?_⟩
    intro ht
    constructor
    · intro m hm
      have hm0 : (resOf df).by_account_pct =
          some (pctMap (resOf df).total (resOf df).by_account) := rfl
      rw [hm0] at hm
      rw [← Option.some.inj hm]
      exact pctMap_zero_entries _ _ ht
    · intro m hm
      have hm0 : (resOf df).by_type_pct =
          some (pctMap (resOf df).total (resOf df).by_type) := rfl
      rw [hm0] at hm
      rw [← Option.some.inj hm]
      exact pctMap_zero_entries _ _ ht

/-- C3 witness: the zero-value portfolio `dfZero` (qty 0). -/
theorem C3_witness :
    ∃ res df2, analyze_portfolio dfZero = some (res, df2) ∧
      (res.total = 0 →
        (∀ m, res.by_account_pct = some m → ∀ p ∈ m, p.2 = 0) ∧
        (∀ m, res.by_type_pct = some m → ∀ p ∈ m, p.2 = 0)) :=
  C3_zero_total_safety dfZero (Or.inr (by decide))

/-- C4 — Percentage normalization: whenever aggregation of a normalized
record set yields a positive total, each percentage map is present and its
values sum to exactly 100 (exact in `ℚ`, hence within any floating
tolerance). -/
theorem C4_pct_normalization (df : DF) (res : AnalysisResult) (df2 : DF)
    (h : NormalizedDF df) (heq : analyze_portfolio df = some (res, df2))
    (hpos : 0 < res.total) :
    (∃ m, res.by_account_pct = some m ∧ (m.map Prod.snd).sum = 100) ∧
    (∃ m, res.by_type_pct = some m ∧ (m.map Prod.snd).sum = 100) := by
  by_cases hrows : df.rows = []
  · exfalso
    have he : df.isEmpty = true := by simp [DF.isEmpty, hrows]
    unfold analyze_portfolio at heq
    rw [he, if_pos rfl] at heq
    have h1 : res = emptyRes :=
      (congrArg Prod.fst (Option.some.inj heq)).symm
    rw [h1] at hpos
    simp [emptyRes] at hpos
  · have hspec := analyze_spec df h hrows
    rw [hspec] at heq
    have hres : res = resOf df := (congrArg Prod.fst (Option.some.inj heq)).symm
    subst hres
    refine ⟨⟨pctMap (resOf df).total (resOf df).by_account, rfl, ?_⟩,
            ⟨pctMap (resOf df).total (resOf df).by_type, rfl, ?_⟩⟩
    · exact pctMap_sum _ _ hpos.ne' (resOf_sums df h).1
    · exact pctMap_sum _ _ hpos.ne' (resOf_sums df h).2

/-- C4 witness: `dfAB`, whose shares are A 30 % and B 70 %. -/
theorem C4_witness :
    (∃ m, (resOf dfAB).by_account_pct = some m ∧ (m.map Prod.snd).sum = 100) ∧
    (∃ m, (resOf dfAB).by_type_pct = some m ∧ (m.map Prod.snd).sum = 100) :=
  C4_pct_normalization dfAB (resOf dfAB) (dfVal dfAB) (by decide) (by decide) (by decide)

/-- C5 counterexample: on empty input the summary dict has NO
`by_account_pct` / `by_type_pct` keys at all (`none`), which is not the
present-and-empty map (`some []`) the claim requires every
PortfolioSummary to carry. -/
theorem C5_counterexample :
    analyze_portfolio dfNone = some (emptyRes, dfNone) ∧
      emptyRes.by_account_pct = none ∧ emptyRes.by_type_pct = none ∧
      (none : Option (List (Cell × ℚ))) ≠ some ([] : List (Cell × ℚ)) := by
  refine ⟨rfl, rfl, rfl, ?_⟩
  simp

/-- C5 amended — empty input yields a normal (non-error) summary with
`total = 0`, empty `by_account` / `by_type` maps and empty records, but
the two percentage keys are absent from the dict (`none`) rather than
present and empty. -/
theorem C5_empty_summary (df : DF) (h : df.isEmpty = true) :
    analyze_portfolio df = some (emptyRes, df) := by
  unfold analyze_portfolio
  rw [h, if_pos rfl]

/-- C5 witness: the empty fetch `dfNone`. -/
theorem C5_witness :
    dfNone.isEmpty = true ∧ analyze_portfolio dfNone = some (emptyRes, dfNone) :=
  ⟨by decide, C5_empty_summary dfNone (by decide)⟩

/-- C6 — Query-handler failure isolation: when acquiring the rows fails,
each of the three handlers answers exactly one user-facing error message
(the descriptive Google-Sheets error text) and stops; no exception escapes
(`some`, never `none`), and the single fetch outcome is consulted once, so
no retry happens within the invocation. -/
theorem C6_fetch_failure_reply (e : String) :
    cmd_portfolio (Except.error e) = some [gsheetErrText e] ∧
      cmd_analysis (Except.error e) = some [gsheetErrText e] ∧
      cmd_rows (Except.error e) = some [gsheetErrText e] :=
  ⟨rfl, rfl, rfl⟩

/-- C7 — Refresh-loop liveness: every cycle `n` of the loop, for every
fetch history, produces a log entry (an error entry exactly when the
cycle's attempt failed, the grand-total entry on success) and then waits
the fixed 1800 seconds; being total in `n`, a failed cycle never
terminates the loop and nothing propagates upward. -/
theorem C7_refresh_liveness (fetches : Nat → Except String DF) (n : Nat) :
    (periodic_task fetches n).2 = 1800 ∧
      (∀ e, cycleAttempt (fetches n) = Except.error e →
        (periodic_task fetches n).1 = LogEntry.err e) ∧
      (∀ t, cycleAttempt (fetches n) = Except.ok t →
        (periodic_task fetches n).1 = LogEntry.info t) := by
  refine ⟨?_, ?_, ?_⟩
  · unfold periodic_task periodic_cycle
    cases cycleAttempt (fetches n) <;> rfl
  · intro e he
    unfold periodic_task periodic_cycle
    rw [he]
  · intro t ht
    unfold periodic_task periodic_cycle
    rw [ht]

/-- C7 witness: a cycle whose fetch raises. -/
theorem C7_witness :
    (periodic_task (fun _ => Except.error "boom") 0).2 = 1800 ∧
      (periodic_task (fun _ => Except.error "boom") 0).1 = LogEntry.err "boom" :=
  ⟨(C7_refresh_liveness (fun _ => Except.error "boom") 0).1,
   (C7_refresh_liveness (fun _ => Except.error "boom") 0).2.1 "boom" rfl⟩

/-- C8 counterexample: aggregation does modify its input record sequence —
on `dfAB` the caller's DataFrame gains a `value` column (field added to
every record), so the post-call frame differs from the input frame. -/
theorem C8_counterexample :
    analyze_portfolio dfAB = some (resOf dfAB, dfVal dfAB) ∧
      "value" ∈ (dfVal dfAB).cols ∧ "value" ∉ dfAB.cols ∧ dfVal dfAB ≠ dfAB :=
  ⟨by decide, by decide, by decide, by decide⟩

/-- C8 amended — the summary is a pure function of the input record set
(`resOf df`), and aggregation leaves every pre-existing field of every
record unchanged; but it does mutate the input in place by attaching the
computed `value` field to each record (the column list gains exactly
`"value"`). -/
theorem C8_purity_frame (df : DF) (res : AnalysisResult) (df2 : DF)
    (h : NormalizedDF df) (hv : "value" ∉ df.cols) (hrows : df.rows ≠ [])
    (heq : analyze_portfolio df = some (res, df2)) :
    res = resOf df ∧ df2.cols = df.cols ++ ["value"] ∧
      ∀ p ∈ df.rows.zip df2.rows, ∀ c ∈ df.cols, getCell p.2 c = getCell p.1 c := by
  have hspec := analyze_spec df h hrows
  rw [hspec] at heq
  have hp := Option.some.inj heq
  have hres : res = resOf df := (congrArg Prod.fst hp).symm
  have hdf2 : df2 = dfVal df := (congrArg Prod.snd hp).symm
  subst hres
  subst hdf2
  refine ⟨rfl, ?_, ?_⟩
  · simp [dfVal, setColumn, hv]
  · intro p hpz c hc
    have hz : ∃ v, p.2 = setCell p.1 "value" (Cell.num v) :=
      zip_zipWith_mem (fun r v => setCell r "value" (Cell.num v)) df.rows (dfVals df) p hpz
    obtain ⟨v, hv2⟩ := hz
    rw [hv2]
    exact getCell_setCell_ne p.1 "value" c (Cell.num v) (fun hcv => hv (hcv ▸ hc))

/-- C8 witness: the one-row frame `dfZero`. -/
theorem C8_witness :
    resOf dfZero = resOf dfZero ∧ (dfVal dfZero).cols = dfZero.cols ++ ["value"] ∧
      ∀ p ∈ dfZero.rows.zip (dfVal dfZero).rows, ∀ c ∈ dfZero.cols,
        getCell p.2 c = getCell p.1 c :=
  C8_purity_frame dfZero (resOf dfZero) (dfVal dfZero) (by decide) (by decide) (by decide)
    (by decide)

/-- C10 — in `cmd_analysis` only the fetch is guarded: a successful fetch
of a non-empty sheet that lacks the `qty` (or `avg_price`) column makes
the unguarded aggregation raise a KeyError, so the handler sends no reply
at all (`none`) — neither a result nor an error description. -/
theorem C10_missing_column_crash (rws : List Row)
    (hne : (mkDF rws).isEmpty = false)
    (hmiss : "qty" ∉ (mkDF rws).cols ∨ "avg_price" ∉ (mkDF rws).cols) :
    cmd_analysis (Except.ok (sheet_to_dataframe rws)) = none := by
  have hdf0 : sheet_to_dataframe rws =
      if (mkDF rws).isEmpty then mkDF rws
      else applyCol (applyCol (mkDF rws) "qty") "avg_price" := rfl
  have hdf : sheet_to_dataframe rws = applyCol (applyCol (mkDF rws) "qty") "avg_price" := by
    rw [hdf0, hne]
    simp
  have hcols : (sheet_to_dataframe rws).cols = (mkDF rws).cols := by
    rw [hdf, applyCol_cols, applyCol_cols]
  have hrl : (sheet_to_dataframe rws).rows.length = (mkDF rws).rows.length := by
    rw [hdf, applyCol_rows_length, applyCol_rows_length]
  have hemp : (sheet_to_dataframe rws).isEmpty = false := by
    apply isEmpty_false_of
    · intro h0
      apply rows_ne_nil_of_isEmpty_false (mkDF rws) hne
      have hl0 : (sheet_to_dataframe rws).rows.length = 0 := by rw [h0]; rfl
      rw [hrl] at hl0
      exact List.eq_nil_of_length_eq_zero hl0
    · rw [hcols]
      exact cols_ne_nil_of_isEmpty_false _ hne
  have hana : analyze_portfolio (sheet_to_dataframe rws) = none := by
    unfold analyze_portfolio
    rw [hemp]
    simp only [Bool.false_eq_true, if_false]
    rw [if_neg ?cond]
    case cond =>
      rcases hmiss with hm | hm
      · exact fun hcond => hm (hcols ▸ hcond.1)
      · exact fun hcond => hm (hcols ▸ hcond.2)
  simp only [cmd_analysis, hana]

/-- C10 witness: a sheet with `account`, `type`, `symbol`, `avg_price`
columns but no `qty` column. -/
theorem C10_witness :
    cmd_analysis (Except.ok (sheet_to_dataframe rawMissingQty)) = none :=
  C10_missing_column_crash rawMissingQty (by decide) (Or.inl (by decide))

/-- C1 counterexample: a sheet with no `qty` column at all. The raw row's
`qty` cell is absent, yet the normalized record's `qty` is the missing
marker (NaN), not the number 0 the claim requires for every absent cell. -/
theorem C1_counterexample :
    getCell ((sheet_to_dataframe rawMissingQty).rows.headI) "qty" = Cell.nan ∧
      Cell.nan ≠ Cell.num 0 := by
  constructor
  · decide
  · decide

/-- C1 (amended) — normalization is total (it returns a frame of the same
rows, never an error), and for a `qty` / `avg_price` column that appears in
the sheet at all, every row's normalized cell is the numeric coercion of
the raw cell with NaN defaulted to 0 — in particular a non-numeric or
blank/absent cell becomes the number 0. A column absent from every raw
row, however, stays absent (NaN on lookup) rather than becoming 0. -/
theorem C1_normalization_total (rws : List Row) :
    (sheet_to_dataframe rws).rows.length = rws.length ∧
      (sheet_to_dataframe rws).cols = (mkDF rws).cols ∧
      ∀ c, (c = "qty" ∨ c = "avg_price") → c ∈ (mkDF rws).cols →
        ∀ p ∈ (mkDF rws).rows.zip (sheet_to_dataframe rws).rows,
          getCell p.2 c = Cell.num ((toNumeric (getCell p.1 c)).getD 0) := by
  have hdf0 : sheet_to_dataframe rws =
      if (mkDF rws).isEmpty then mkDF rws
      else applyCol (applyCol (mkDF rws) "qty") "avg_price" := rfl
  by_cases he : (mkDF rws).isEmpty
  · have hdf : sheet_to_dataframe rws = mkDF rws := by rw [hdf0, if_pos he]
    refine ⟨by rw [hdf]; rfl, by rw [hdf], ?_⟩
    intro c hc hcmem p hp
    have he' := he
    rw [DF.isEmpty, Bool.or_eq_true, List.isEmpty_iff, List.isEmpty_iff] at he'
    rcases he' with hr | hcn
    · rw [hdf, hr] at hp
      simp at hp
    · rw [hcn] at hcmem
      simp at hcmem
  · have hdf : sheet_to_dataframe rws = applyCol (applyCol (mkDF rws) "qty") "avg_price" := by
      rw [hdf0, if_neg he]
    refine ⟨by rw [hdf, applyCol_rows_length, applyCol_rows_length]; rfl,
      by rw [hdf, applyCol_cols, applyCol_cols], ?_⟩
    intro c hc hcmem p hp
    rw [hdf] at hp
    by_cases hq : "qty" ∈ (mkDF rws).cols
    · by_cases ha : "avg_price" ∈ (mkDF rws).cols
      · rw [applyCol_rows_of_mem _ _ (show "avg_price" ∈ (applyCol (mkDF rws) "qty").cols by
            rw [applyCol_cols]; exact ha),
          applyCol_rows_of_mem _ _ hq, List.map_map] at hp
        have hgp := zip_map_self _ _ p hp
        rw [hgp]
        rcases hc with hc | hc <;> subst hc
        · simp only [Function.comp_apply]
          rw [getCell_setCell_ne _ "avg_price" "qty" _ (by decide), getCell_setCell_self]
          rfl
        · simp only [Function.comp_apply]
          rw [getCell_setCell_self, getCell_setCell_ne _ "qty" "avg_price" _ (by decide)]
          rfl
      · have hone : applyCol (applyCol (mkDF rws) "qty") "avg_price" =
            applyCol (mkDF rws) "qty" :=
          applyCol_of_not_mem _ _ (by rw [applyCol_cols]; exact ha)
        rw [hone, applyCol_rows_of_mem _ _ hq] at hp
        have hgp := zip_map_self _ _ p hp
        rw [hgp]
        rcases hc with hc | hc <;> subst hc
        · rw [getCell_setCell_self]
          rfl
        · exact absurd hcmem ha
    · by_cases ha : "avg_price" ∈ (mkDF rws).cols
      · rw [applyCol_of_not_mem _ _ hq, applyCol_rows_of_mem _ _ ha] at hp
        have hgp := zip_map_self _ _ p hp
        rw [hgp]
        rcases hc with hc | hc <;> subst hc
        · exact absurd hcmem hq
        · rw [getCell_setCell_self]
          rfl
      · rcases hc with hc | hc <;> subst hc
        · exact absurd hcmem hq
        · exact absurd hcmem ha

/-- C1 witness: the non-numeric `"abc"` qty cell of `rawBadQty` normalizes
to the numeric cell 0. -/
theorem C1_witness :
    ("qty" = "qty" ∨ "qty" = "avg_price") ∧ "qty" ∈ (mkDF rawBadQty).cols ∧
      getCell ((sheet_to_dataframe rawBadQty).rows.headI) "qty" = Cell.num 0 := by
  refine ⟨Or.inl rfl, by decide, ?_⟩
  have h := (C1_normalization_total rawBadQty).2.2 "qty" (Or.inl rfl) (by decide)
    ((mkDF rawBadQty).rows.headI, (sheet_to_dataframe rawBadQty).rows.headI) (by decide)
  exact h.trans (by decide)

/-- C9 counterexample: on a 5000 ₽ portfolio, the full-listing reply's
grand-total line reads `"5000.00"` — two decimal places but no thousands
separator — while the separator rendering would be `"5,000.00"` (and the
unit price appears raw as `"5"`); so not every monetary value, and in
particular not every grand-total line, carries a thousands separator. -/
theorem C9_counterexample :
    cmd_portfolio (Except.ok dfBig) =
      some ["📊 *Твой портфель*:\n\nX — qty: 1000, price: 5 ₽, value: 5,000.00 ₽\n\n💵 *Итого:* 5000.00 ₽"] ∧
      fmt2 5000 ≠ fmt2c 5000 := by
  constructor
  · decide
  · decide

/-- C9 (amended) — per-record values and all analysis-reply monetary
values are rendered with two decimals and a thousands separator
(`fmt2c`, Python `"{:,.2f}"`) and percentages with one decimal (`fmt1`,
`"{:.1f}"`), but the full-listing grand total is rendered with plain
`"{:.2f}"` (`fmt2`, no thousands separator) and the raw `qty` /
`avg_price` cells are interpolated unformatted. -/
theorem C9_reply_formats (df : DF) (h : NormalizedDF df) (hrows : df.rows ≠ []) :
    cmd_portfolio (Except.ok df) =
      some [String.intercalate "\n"
        ("📊 *Твой портфель*:\n" :: df.rows.map lineOfN ++
          ["\n💵 *Итого:* " ++ fmt2 ((df.rows.map valN).sum) ++ " ₽"])] ∧
      ((resOf df).total ≠ 0 →
        cmd_analysis (Except.ok df) =
          some [String.intercalate "\n"
            (("📈 *Анализ портфеля* — Итого: " ++ fmt2c (resOf df).total ++ " ₽\n")
              :: "— По счетам:"
              :: ((resOf df).by_account.map
                    (groupLine (pctMap (resOf df).total (resOf df).by_account)) ++
                  "\n— По типам:" ::
                    (resOf df).by_type.map
                      (groupLine (pctMap (resOf df).total (resOf df).by_type))))]) := by
  obtain ⟨hq, ha, hacc, hty, hcells⟩ := h
  have hemp : df.isEmpty = false := isEmpty_false_of df hrows (List.ne_nil_of_mem hq)
  constructor
  · have hld : mapOpt listingData df.rows =
        some (df.rows.map (fun r => (lineOfN r, valN r))) := by
      apply mapOpt_eq_map
      intro r hr
      obtain ⟨h1, h2, _, _⟩ := hcells r hr
      cases hcq : getCell r "qty" with
      | num q =>
        cases hca : getCell r "avg_price" with
        | num a =>
          have hgq : getCellD r "qty" (Cell.num 0) = Cell.num q :=
            getCellD_eq_of_num r _ _ q hcq
          have hga : getCellD r "avg_price" (Cell.num 0) = Cell.num a :=
            getCellD_eq_of_num r _ _ a hca
          unfold listingData lineOfN valN
          rw [hgq, hga, hcq, hca]
          simp [pyFloat, cellNum]
        | str s => rw [hca] at h2; simp [isNumCell] at h2
        | nan => rw [hca] at h2; simp [isNumCell] at h2
      | str s => rw [hcq] at h1; simp [isNumCell] at h1
      | nan => rw [hcq] at h1; simp [isNumCell] at h1
    simp only [cmd_portfolio, hemp, Bool.false_eq_true, if_false, hld, List.map_map]
    simp [Function.comp_def]
  · intro ht
    have hspec := analyze_spec df ⟨hq, ha, hacc, hty, hcells⟩ hrows
    simp only [cmd_analysis, hspec]
    rw [if_neg ht]
    rfl

/-- C9 witness: both replies of the two-account portfolio `dfAB`. -/
theorem C9_witness :
    cmd_portfolio (Except.ok dfAB) =
      some [String.intercalate "\n"
        ("📊 *Твой портфель*:\n" :: dfAB.rows.map lineOfN ++
          ["\n💵 *Итого:* " ++ fmt2 ((dfAB.rows.map valN).sum) ++ " ₽"])] ∧
      cmd_analysis (Except.ok dfAB) =
        some [String.intercalate "\n"
          (("📈 *Анализ портфеля* — Итого: " ++ fmt2c (resOf dfAB).total ++ " ₽\n")
            :: "— По счетам:"
            :: ((resOf dfAB).by_account.map
                  (groupLine (pctMap (resOf dfAB).total (resOf dfAB).by_account)) ++
                "\n— По типам:" ::
                  (resOf dfAB).by_type.map
                    (groupLine (pctMap (resOf dfAB).total (resOf dfAB).by_type))))] :=
  ⟨(C9_reply_formats dfAB (by decide) (by decide)).1,
   (C9_reply_formats dfAB (by decide) (by decide)).2 (by decide)⟩
